import Mathlib

set_option linter.unusedVariables false

/-!
# Verification of `build_package.py`

Shallow embedding of the control-file parser (`parse_dsc`) and the CLI
dispatcher (`main` / `get_args` / `build_binary`) of `build_package.py`,
together with theorems settling the specification's claims.

Conventions of the embedding:
* A file's text content is a `String`; the filesystem is a partial map
  `String → Option String` (a `none` result models a missing file, on
  which Python's `open` raises a file-not-found error).
* Python exceptions become the error side of `Except`.  The spec's
  taxonomy names them `NotFoundError` (missing file), `FormatError`
  (a checksum row of the wrong shape: in the source an `IndexError`
  from `data[2]` on short rows, or a `TypeError` from `SourceFile(*data)`
  on long rows — both mean "row does not split into exactly three
  tokens"), and `UsageError` (argument parsing).
* `os.path` functions are embedded from their POSIX definitions
  (`posixpath.dirname`, `posixpath.join`, `posixpath.basename`).
-/

namespace BuildPackage

/-- Python whitespace characters relevant inside a single line, as used by
`str.split()` with no separator argument. -/
def isPySpace (c : Char) : Bool :=
  c = ' ' || c = '\t' || c = '\n' || c = '\r' || c = '\x0b' || c = '\x0c'

/-- `listStarts s p` : does the char list `s` start with the char list `p`?
Embeds Python `str.startswith`. -/
def listStarts : List Char → List Char → Bool
  | _, [] => true
  | [], _ :: _ => false
  | c :: cs, p :: ps => c = p && listStarts cs ps

/-- Python `s.startswith(pre)`. -/
def strStartsWith (s pre : String) : Bool :=
  listStarts s.data pre.data

/-- Auxiliary for `pySplit`: split a char list on `isPySpace`, discarding
empty runs, as Python `str.split()` (no argument) does. -/
def pySplitAux : List Char → List Char → List String
  | [], cur => if cur.isEmpty then [] else [⟨cur.reverse⟩]
  | c :: rest, cur =>
    if isPySpace c then
      if cur.isEmpty then pySplitAux rest []
      else ⟨cur.reverse⟩ :: pySplitAux rest []
    else pySplitAux rest (c :: cur)

/-- Python `line.split()`: whitespace-separated tokens, no empties. -/
def pySplit (s : String) : List String :=
  pySplitAux s.data []

/-- Auxiliary for `pySplitlines`: accumulate the current line (reversed) and
emit on a line break (`\n`, `\r`, or the two-character `\r\n`).  A trailing
break produces no final empty line, as in Python `str.splitlines()`. -/
def pySplitlinesAux : List Char → List Char → List String
  | [], cur => if cur.isEmpty then [] else [⟨cur.reverse⟩]
  | '\r' :: '\n' :: rest, cur => ⟨cur.reverse⟩ :: pySplitlinesAux rest []
  | '\r' :: rest, cur => ⟨cur.reverse⟩ :: pySplitlinesAux rest []
  | '\n' :: rest, cur => ⟨cur.reverse⟩ :: pySplitlinesAux rest []
  | c :: rest, cur => pySplitlinesAux rest (c :: cur)

/-- Python `content.splitlines()` (for the `\n`, `\r`, `\r\n` breaks). -/
def pySplitlines (s : String) : List String :=
  pySplitlinesAux s.data []

/-- `posixpath.dirname`'s `p[:p.rfind('/') + 1]`: the prefix of `cs` up to
and including the last `'/'`; `[]` when there is no slash. -/
def headUpToLastSlash : List Char → List Char
  | [] => []
  | c :: rest =>
    let t := headUpToLastSlash rest
    if t.isEmpty then (if c = '/' then ['/'] else []) else c :: t

/-- Strip trailing slashes (`head.rstrip(sep)` in `posixpath.dirname`). -/
def rstripSlash (cs : List Char) : List Char :=
  (cs.reverse.dropWhile (fun c => c = '/')).reverse

/-- `posixpath.dirname` on char lists. -/
def dirnameChars (cs : List Char) : List Char :=
  let head := headUpToLastSlash cs
  if !head.isEmpty && !head.all (fun c => c = '/') then rstripSlash head
  else head

/-- Python `os.path.dirname` (POSIX). -/
def dirname (p : String) : String :=
  ⟨dirnameChars p.data⟩

/-- `posixpath.join` for two arguments, on char lists: if `b` is absolute
take `b`; else append, inserting a `'/'` unless `a` is empty or already
ends with one. -/
def joinChars (a b : List Char) : List Char :=
  if b.head? = some '/' then b
  else if a = [] then b
  else if a.reverse.head? = some '/' then a ++ b
  else a ++ '/' :: b

/-- Python `os.path.join` (POSIX) for two arguments. -/
def pathJoin (a b : String) : String :=
  ⟨joinChars a.data b.data⟩

/-- `posixpath.basename` on char lists: the suffix after the last `'/'`. -/
def basenameChars (cs : List Char) : List Char :=
  (cs.reverse.takeWhile (fun c => c ≠ '/')).reverse

/-- Python `os.path.basename` (POSIX). -/
def basenameStr (p : String) : String :=
  ⟨basenameChars p.data⟩

/-- `SourceFile = namedtuple('SourceFile', ['sha256', 'size', 'name', 'path'])`.
All four fields hold the raw strings the source stores. -/
structure SourceFile where
  sha256 : String
  size : String
  name : String
  path : String
deriving Repr, DecidableEq

/-- Errors `parse_dsc` can raise: `notFound` embeds the file-not-found
error from `open`; `formatError` embeds the error raised on a checksum row
that does not split into exactly three tokens (the spec's `FormatError`). -/
inductive PError where
  | notFound
  | formatError
deriving Repr, DecidableEq

/-- Convert one section data row into a `SourceFile`, or fail: embeds
`data = line.split(); data.append(os.path.join(there, data[2]));
files.append(SourceFile(*data))`, which errors unless the row has exactly
three tokens. -/
def rowToEntry (there line : String) : Except PError SourceFile :=
  let data := pySplit line
  if data.length = 3 then
    Except.ok ⟨data.getD 0 "", data.getD 1 "", data.getD 2 "",
               pathJoin there (data.getD 2 "")⟩
  else Except.error PError.formatError

/-- The scanning loop of `parse_dsc` over the lines of the file, with the
`found` flag as explicit state.  Returns the accumulated entries (the
`elif found: break` arm discards all remaining lines). -/
def parseLines (there : String) : Bool → List String → Except PError (List SourceFile)
  | _, [] => Except.ok []
  | found, line :: rest =>
    if found && strStartsWith line " " then
      match rowToEntry there line with
      | Except.ok sf =>
        match parseLines there true rest with
        | Except.ok files => Except.ok (sf :: files)
        | Except.error e => Except.error e
      | Except.error e => Except.error e
    else if found then
      Except.ok []
    else if strStartsWith line "Checksums-Sha256:" then
      parseLines there true rest
    else
      parseLines there false rest

/-- `parse_dsc(dsc_path)`: open the control file (file-not-found when the
filesystem has no entry), then scan its lines for the first
`Checksums-Sha256:` section. -/
def parse_dsc (fs : String → Option String) (dsc_path : String) :
    Except PError (List SourceFile) :=
  match fs dsc_path with
  | none => Except.error PError.notFound
  | some content => parseLines (dirname dsc_path) false (pySplitlines content)

/-- The data rows of the first `Checksums-Sha256:` section: the maximal run
of space-indented lines following the first header line.  (This is the
region the source's loop scans; used to state the claims.) -/
def sectionRows : List String → List String
  | [] => []
  | line :: rest =>
    if strStartsWith line "Checksums-Sha256:" then
      rest.takeWhile (fun l => strStartsWith l " ")
    else sectionRows rest

/-- The entry a well-formed row is converted to (first, second, third token
plus the joined path). -/
def mkEntry (there row : String) : SourceFile :=
  ⟨(pySplit row).getD 0 "", (pySplit row).getD 1 "", (pySplit row).getD 2 "",
   pathJoin there ((pySplit row).getD 2 "")⟩

/-- Convert a list of data rows to entries, failing on the first malformed
row: the data path of the loop, decoupled from section scanning (used to
state what the loop computes on the section's rows). -/
def rowsToEntries (there : String) : List String → Except PError (List SourceFile)
  | [] => Except.ok []
  | row :: rest =>
    match rowToEntry there row with
    | Except.ok sf =>
      match rowsToEntries there rest with
      | Except.ok files => Except.ok (sf :: files)
      | Except.error e => Except.error e
    | Except.error e => Except.error e

/-! ## Helper lemmas -/

theorem takeWhile_append_of_all {α : Type} (p : α → Bool) (l₁ l₂ : List α)
    (h : ∀ a ∈ l₁, p a = true) :
    (l₁ ++ l₂).takeWhile p = l₁ ++ l₂.takeWhile p := by
  induction l₁ with
  | nil => simp
  | cons a l ih =>
    have ha : p a = true := h a (by simp)
    simp [List.takeWhile_cons, ha]
    exact ih (fun b hb => h b (by simp [hb]))

theorem takeWhile_eq_self_of_all {α : Type} (p : α → Bool) (l : List α)
    (h : ∀ a ∈ l, p a = true) :
    l.takeWhile p = l := by
  induction l with
  | nil => rfl
  | cons a t ih =>
    have ha : p a = true := h a (by simp)
    rw [List.takeWhile_cons, if_pos ha]
    rw [ih (fun b hb => h b (by simp [hb]))]

theorem list_eq_of_length_three (l : List String) (h : l.length = 3) :
    l = [l.getD 0 "", l.getD 1 "", l.getD 2 ""] := by
  match l, h with
  | [a, b, c], _ => rfl

/-- Once the header has been found, the loop processes exactly the maximal
run of space-started lines as data rows. -/
theorem parseLines_true_eq (there : String) (lines : List String) :
    parseLines there true lines =
      rowsToEntries there (lines.takeWhile (fun l => strStartsWith l " ")) := by
  induction lines with
  | nil => rfl
  | cons line rest ih =>
    by_cases h : strStartsWith line " " = true
    · simp only [parseLines, Bool.true_and, h, if_pos, List.takeWhile_cons,
        rowsToEntries, ih]
    · have h' : strStartsWith line " " = false := by
        simpa using h
      simp only [parseLines, Bool.true_and, h', List.takeWhile_cons,
        rowsToEntries, if_neg, Bool.false_eq_true, not_false_iff, if_pos]

/-- Lines before the first header line are skipped without effect. -/
theorem parseLines_skip (there header : String) (pre rest : List String)
    (hpre : ∀ l ∈ pre, strStartsWith l "Checksums-Sha256:" = false)
    (hhdr : strStartsWith header "Checksums-Sha256:" = true) :
    parseLines there false (pre ++ header :: rest) =
      parseLines there true rest := by
  induction pre with
  | nil =>
    simp only [List.nil_append, parseLines, Bool.false_and, Bool.false_eq_true,
      if_neg, not_false_iff, hhdr, if_pos]
  | cons l pre ih =>
    have hl : strStartsWith l "Checksums-Sha256:" = false := hpre l (by simp)
    simp only [List.cons_append, parseLines, Bool.false_and, Bool.false_eq_true,
      if_neg, not_false_iff, hl]
    exact ih (fun x hx => hpre x (by simp [hx]))

/-- With no header line anywhere, the loop returns the empty list. -/
theorem parseLines_no_header (there : String) (lines : List String)
    (h : ∀ l ∈ lines, strStartsWith l "Checksums-Sha256:" = false) :
    parseLines there false lines = Except.ok [] := by
  induction lines with
  | nil => rfl
  | cons l rest ih =>
    have hl : strStartsWith l "Checksums-Sha256:" = false := h l (by simp)
    simp only [parseLines, Bool.false_and, Bool.false_eq_true, if_neg,
      not_false_iff, hl]
    exact ih (fun x hx => h x (by simp [hx]))

/-- The whole scan computes `rowsToEntries` of the first section's rows. -/
theorem parseLines_false_eq (there : String) (lines : List String) :
    parseLines there false lines = rowsToEntries there (sectionRows lines) := by
  induction lines with
  | nil => rfl
  | cons line rest ih =>
    by_cases h : strStartsWith line "Checksums-Sha256:" = true
    · simp only [parseLines, Bool.false_and, Bool.false_eq_true, if_neg,
        not_false_iff, h, if_pos, sectionRows]
      exact parseLines_true_eq there rest
    · have h' : strStartsWith line "Checksums-Sha256:" = false := by simpa using h
      simp only [parseLines, Bool.false_and, Bool.false_eq_true, if_neg,
        not_false_iff, h', sectionRows, ih]

/-- `parse_dsc` on an existing file computes `rowsToEntries` of the first
section's rows. -/
theorem parse_dsc_eq (fs : String → Option String) (dsc_path content : String)
    (hfs : fs dsc_path = some content) :
    parse_dsc fs dsc_path =
      rowsToEntries (dirname dsc_path) (sectionRows (pySplitlines content)) := by
  simp only [parse_dsc, hfs]
  exact parseLines_false_eq _ _

/-- On all-well-formed rows, `rowsToEntries` succeeds with the mapped
entries. -/
theorem rowsToEntries_ok_of_wf (there : String) (rows : List String)
    (h : ∀ r ∈ rows, (pySplit r).length = 3) :
    rowsToEntries there rows = Except.ok (rows.map (mkEntry there)) := by
  induction rows with
  | nil => rfl
  | cons row rest ih =>
    have hr : (pySplit row).length = 3 := h row (by simp)
    have hrest := ih (fun x hx => h x (by simp [hx]))
    simp only [rowsToEntries, rowToEntry, hr, if_pos, hrest, List.map_cons]
    rfl

/-- A malformed row anywhere in the list forces the format error. -/
theorem rowsToEntries_error_of_bad (there : String) (rows : List String)
    (h : ∃ r ∈ rows, (pySplit r).length ≠ 3) :
    rowsToEntries there rows = Except.error PError.formatError := by
  induction rows with
  | nil => simp at h
  | cons row rest ih =>
    by_cases hr : (pySplit row).length = 3
    · have hrest : ∃ r ∈ rest, (pySplit r).length ≠ 3 := by
        rcases h with ⟨r, hmem, hbad⟩
        rcases List.mem_cons.mp hmem with rfl | hmem'
        · exact absurd hr hbad
        · exact ⟨r, hmem', hbad⟩
      simp only [rowsToEntries, rowToEntry, hr, if_pos, ih hrest]
    · simp only [rowsToEntries, rowToEntry, hr, if_neg, not_false_iff]

/-- Every entry produced carries the joined path and the raw tokens of some
input row. -/
theorem rowsToEntries_mem_shape (there : String) (rows : List String)
    (res : List SourceFile) (e : SourceFile)
    (h : rowsToEntries there rows = Except.ok res) (he : e ∈ res) :
    e.path = pathJoin there e.name ∧
      ∃ r ∈ rows, pySplit r = [e.sha256, e.size, e.name] := by
  induction rows generalizing res with
  | nil =>
    have h' : Except.ok ([] : List SourceFile) = Except.ok res := h
    cases h'
    simp at he
  | cons row rest ih =>
    by_cases hr : (pySplit row).length = 3
    · have hrow : rowToEntry there row = Except.ok (mkEntry there row) := by
        simp [rowToEntry, mkEntry, hr]
      cases hres : rowsToEntries there rest with
      | error err =>
        have hstep : rowsToEntries there (row :: rest) = Except.error err := by
          unfold rowsToEntries
          rw [hrow, hres]
        rw [hstep] at h
        exact absurd h (by simp)
      | ok files =>
        have hstep : rowsToEntries there (row :: rest) =
            Except.ok (mkEntry there row :: files) := by
          unfold rowsToEntries
          rw [hrow, hres]
        rw [hstep] at h
        have h' : mkEntry there row :: files = res := by simpa using h
        subst h'
        rcases List.mem_cons.mp he with rfl | he'
        · refine ⟨rfl, row, by simp, ?_⟩
          exact list_eq_of_length_three _ hr
        · obtain ⟨hp, r, hmem, hsplit⟩ := ih files hres he'
          exact ⟨hp, r, by simp [hmem], hsplit⟩
    · have hrow : rowToEntry there row = Except.error PError.formatError := by
        simp [rowToEntry, hr]
      have hstep : rowsToEntries there (row :: rest) =
          Except.error PError.formatError := by
        unfold rowsToEntries
        rw [hrow]
      rw [hstep] at h
      exact absurd h (by simp)

/-- Core of the base-name invariant: when `x` reversed is `b` reversed
followed by a suffix whose `takeWhile (· ≠ '/')` is empty, the base name of
`x` is `b`. -/
theorem basenameChars_split (x b suf : List Char)
    (hx : x.reverse = b.reverse ++ suf)
    (hall : ∀ c ∈ b, c ≠ '/')
    (hsuf : suf.takeWhile (fun c : Char => c ≠ '/') = []) :
    basenameChars x = b := by
  have hall' : ∀ c ∈ b.reverse, (fun c : Char => (c ≠ '/' : Bool)) c = true := by
    intro c hc
    simp only [decide_eq_true_eq]
    exact hall c (List.mem_reverse.mp hc)
  unfold basenameChars
  rw [hx, takeWhile_append_of_all _ _ _ hall', hsuf, List.append_nil,
    List.reverse_reverse]

/-- Joining a separator-free name onto a directory leaves the name as the
base name of the result. -/
theorem basename_join_of_no_slash (a name : String)
    (h : ∀ c ∈ name.data, c ≠ '/') :
    basenameStr (pathJoin a name) = name := by
  have key : basenameChars (joinChars a.data name.data) = name.data := by
    unfold joinChars
    by_cases h1 : name.data.head? = some '/'
    · exfalso
      rcases hn : name.data with _ | ⟨c, t⟩
      · rw [hn] at h1; simp at h1
      · rw [hn] at h1
        simp only [List.head?_cons, Option.some.injEq] at h1
        exact h c (by simp [hn]) (by simp [h1])
    · rw [if_neg h1]
      by_cases h2 : a.data = []
      · rw [if_pos h2]
        exact basenameChars_split _ _ [] (by simp) h rfl
      · rw [if_neg h2]
        by_cases h3 : a.data.reverse.head? = some '/'
        · rw [if_pos h3]
          rcases har : a.data.reverse with _ | ⟨c, t⟩
          · exact absurd (by simpa using congrArg List.reverse har) h2
          · rw [har] at h3
            simp only [List.head?_cons, Option.some.injEq] at h3
            subst h3
            refine basenameChars_split _ _ ('/' :: t) ?_ h ?_
            · rw [List.reverse_append, har]
            · simp [List.takeWhile_cons]
        · rw [if_neg h3]
          refine basenameChars_split _ _ ('/' :: a.data.reverse) ?_ h ?_
          · simp
          · simp [List.takeWhile_cons]
  show String.mk (basenameChars (joinChars a.data name.data)) = name
  rw [key]

/-! ## The command dispatcher -/

/-- The spec's `UsageError`: invalid or missing CLI arguments. -/
inductive UsageError where
  | missingCommand
  | unknownArgument (tok : String)
  | wrongArity
deriving Repr, DecidableEq

/-- The recognized sub-command with its two positional parameters. -/
inductive Command where
  | binary (dsc location : String)
deriving Repr, DecidableEq

/-- The parsed argument record (`args.verbose`, `args.command`, and the
sub-command's positionals). -/
structure Args where
  verbose : Bool
  command : Command
deriving Repr, DecidableEq

/-- Modelled from the spec: the argument-parsing contract of `get_args`
(the `ArgumentParser` machinery is library code not present in the source).
Per the spec, the CLI surface is `<prog> [-v|--verbose] binary <dsc>
<location>`: an optional boolean verbose flag, then the required
sub-command `binary` with exactly two positional parameters; anything else
is a `UsageError` (in particular an absent sub-command). -/
def parseArgTokens (verbose : Bool) : List String → Except UsageError Args
  | [] => Except.error UsageError.missingCommand
  | tok :: rest =>
    if tok = "-v" || tok = "--verbose" then parseArgTokens true rest
    else if tok = "binary" then
      match rest with
      | [dsc, location] => Except.ok ⟨verbose, Command.binary dsc location⟩
      | _ => Except.error UsageError.wrongArity
    else Except.error (UsageError.unknownArgument tok)

/-- `get_args(argv)`: parse `argv[1:]` (the program name is dropped). -/
def get_args (argv : List String) : Except UsageError Args :=
  parseArgTokens false (argv.drop 1)

/-- `build_binary(dsc_path, location)`: parse the control file, discard the
result, return exit code 0; exceptions from `parse_dsc` propagate. -/
def build_binary (fs : String → Option String) (dsc_path location : String)
    (verbose : Bool) : Except PError Nat :=
  match parse_dsc fs dsc_path with
  | Except.ok _ => Except.ok 0
  | Except.error e => Except.error e

/-- An error escaping `main`: a usage error from argument parsing, or an
uncaught exception from the build action. -/
inductive ProgError where
  | usage (e : UsageError)
  | uncaught (e : PError)
deriving Repr, DecidableEq

/-- `main(argv)`: get the arguments, dispatch on the command, return the
exit code; errors propagate. -/
def main_run (fs : String → Option String) (argv : List String) :
    Except ProgError Nat :=
  match get_args argv with
  | Except.error e => Except.error (ProgError.usage e)
  | Except.ok args =>
    match args.command with
    | Command.binary dsc location =>
      match build_binary fs dsc location args.verbose with
      | Except.ok code => Except.ok code
      | Except.error e => Except.error (ProgError.uncaught e)

/-- `sys.exit(main(sys.argv))`: the process exit status.  Modelled from the
spec for the error paths: a usage error terminates with the argument
parser's status 2, an uncaught exception terminates the interpreter with
status 1 — both non-zero, as the spec requires. -/
def program_exit (fs : String → Option String) (argv : List String) : Nat :=
  match main_run fs argv with
  | Except.ok code => code
  | Except.error (ProgError.usage _) => 2
  | Except.error (ProgError.uncaught _) => 1

/-- Without a `binary` token among the arguments, parsing always fails. -/
theorem parseArgTokens_error_of_no_binary (toks : List String) (verbose : Bool)
    (h : ∀ t ∈ toks, t ≠ "binary") :
    ∃ e, parseArgTokens verbose toks = Except.error e := by
  induction toks generalizing verbose with
  | nil => exact ⟨UsageError.missingCommand, rfl⟩
  | cons tok rest ih =>
    by_cases hf : (tok = "-v" || tok = "--verbose") = true
    · obtain ⟨e, he⟩ := ih true (fun t ht => h t (by simp [ht]))
      refine ⟨e, ?_⟩
      simp only [parseArgTokens, hf, if_pos]
      exact he
    · have hb : ¬ tok = "binary" := h tok (by simp)
      refine ⟨UsageError.unknownArgument tok, ?_⟩
      simp only [parseArgTokens, hf, Bool.false_eq_true, if_neg, not_false_iff,
        hb, if_false]

/-- Every entry of a successful parse carries the joined path, and its
three string fields are the raw tokens of some row of the first section. -/
theorem parse_dsc_mem (fs : String → Option String) (dsc_path : String)
    (res : List SourceFile) (e : SourceFile)
    (h : parse_dsc fs dsc_path = Except.ok res) (he : e ∈ res) :
    e.path = pathJoin (dirname dsc_path) e.name ∧
      ∃ content, fs dsc_path = some content ∧
        ∃ r ∈ sectionRows (pySplitlines content),
          pySplit r = [e.sha256, e.size, e.name] := by
  cases hfs : fs dsc_path with
  | none =>
    have hne : parse_dsc fs dsc_path = Except.error PError.notFound := by
      simp only [parse_dsc, hfs]
    rw [hne] at h
    exact absurd h (by simp)
  | some content =>
    rw [parse_dsc_eq fs dsc_path content hfs] at h
    obtain ⟨hp, hr⟩ := rowsToEntries_mem_shape _ _ res e h he
    exact ⟨hp, content, rfl, hr⟩

/-! ## Claims -/

/-- C1: for every control file whose `Checksums-Sha256` section consists of
well-formed data rows, `parse_dsc` returns exactly one entry per row, in
row order, each entry taking its checksum, size and name from the row's
first, second and third whitespace-separated tokens (and the computed
path). -/
theorem C1_wellformed_rows_in_order (fs : String → Option String)
    (dsc_path content : String)
    (hfs : fs dsc_path = some content)
    (hwf : ∀ r ∈ sectionRows (pySplitlines content), (pySplit r).length = 3) :
    parse_dsc fs dsc_path =
      Except.ok ((sectionRows (pySplitlines content)).map
        (mkEntry (dirname dsc_path))) := by
  rw [parse_dsc_eq fs dsc_path content hfs]
  exact rowsToEntries_ok_of_wf _ _ hwf

theorem C1_witness :
    parse_dsc
      (fun p => if p = "/tmp/pkg/foo.dsc"
        then some "Checksums-Sha256:\n abcdef0123456789 100 foo.tar.gz\n fedcba9876543210 200 foo.dsc\nOther-Field: x\n"
        else none) "/tmp/pkg/foo.dsc" =
      Except.ok ((sectionRows (pySplitlines
        "Checksums-Sha256:\n abcdef0123456789 100 foo.tar.gz\n fedcba9876543210 200 foo.dsc\nOther-Field: x\n")).map
        (mkEntry (dirname "/tmp/pkg/foo.dsc"))) :=
  C1_wellformed_rows_in_order _ "/tmp/pkg/foo.dsc" _ (by rfl) (by decide)

/-- C2: a `Checksums-Sha256` section containing a malformed data row (an
indented line that does not split into exactly three tokens) makes
`parse_dsc` fail with the format error; no partial list is returned. -/
theorem C2_malformed_row_fails (fs : String → Option String)
    (dsc_path content : String)
    (hfs : fs dsc_path = some content)
    (hbad : ∃ r ∈ sectionRows (pySplitlines content), (pySplit r).length ≠ 3) :
    parse_dsc fs dsc_path = Except.error PError.formatError := by
  rw [parse_dsc_eq fs dsc_path content hfs]
  exact rowsToEntries_error_of_bad _ _ hbad

theorem C2_witness :
    parse_dsc
      (fun p => if p = "/tmp/pkg/foo.dsc"
        then some "Checksums-Sha256:\n abc123 1024\nOther-Field: x\n"
        else none) "/tmp/pkg/foo.dsc" = Except.error PError.formatError :=
  C2_malformed_row_fails _ "/tmp/pkg/foo.dsc" _ (by rfl) (by decide)

/-- C3: a control file without any `Checksums-Sha256:` header line parses
to the empty list rather than an error. -/
theorem C3_no_section_empty (fs : String → Option String)
    (dsc_path content : String)
    (hfs : fs dsc_path = some content)
    (hnh : ∀ l ∈ pySplitlines content,
      strStartsWith l "Checksums-Sha256:" = false) :
    parse_dsc fs dsc_path = Except.ok [] := by
  simp only [parse_dsc, hfs]
  exact parseLines_no_header _ _ hnh

theorem C3_witness :
    parse_dsc
      (fun p => if p = "/tmp/pkg/foo.dsc"
        then some "Source: foo\nFiles:\n aaa 1 x\n"
        else none) "/tmp/pkg/foo.dsc" = Except.ok [] :=
  C3_no_section_empty _ "/tmp/pkg/foo.dsc" _ (by rfl) (by decide)

/-- C4: every returned entry's `path` is the control file's directory
joined with the entry's `name`. -/
theorem C4_path_is_join (fs : String → Option String) (dsc_path : String)
    (res : List SourceFile) (e : SourceFile)
    (h : parse_dsc fs dsc_path = Except.ok res) (he : e ∈ res) :
    e.path = pathJoin (dirname dsc_path) e.name :=
  (parse_dsc_mem fs dsc_path res e h he).1

theorem C4_witness :
    (⟨"abcdef0123456789", "100", "foo.tar.gz", "/tmp/pkg/foo.tar.gz"⟩ :
        SourceFile).path =
      pathJoin (dirname "/tmp/pkg/foo.dsc")
        (⟨"abcdef0123456789", "100", "foo.tar.gz", "/tmp/pkg/foo.tar.gz"⟩ :
          SourceFile).name :=
  C4_path_is_join
    (fun p => if p = "/tmp/pkg/foo.dsc"
      then some "Checksums-Sha256:\n abcdef0123456789 100 foo.tar.gz\n"
      else none) "/tmp/pkg/foo.dsc"
    [⟨"abcdef0123456789", "100", "foo.tar.gz", "/tmp/pkg/foo.tar.gz"⟩]
    _ (by rfl) (by simp)

/-- C5 fails as stated: a name token containing a path separator (here the
absolute name `/tmp/x`) produces an entry whose path's base name `x`
differs from the name field `/tmp/x`. -/
theorem C5_counterexample :
    parse_dsc
      (fun p => if p = "pkg/foo.dsc"
        then some "Checksums-Sha256:\n abc 10 /tmp/x\n"
        else none) "pkg/foo.dsc" =
      Except.ok [⟨"abc", "10", "/tmp/x", "/tmp/x"⟩] ∧
    basenameStr "/tmp/x" ≠ "/tmp/x" :=
  ⟨rfl, by decide⟩

/-- C5 (amended): for every entry whose name token contains no `'/'`, the
base name of the entry's path equals the name. -/
theorem C5_amended_basename_of_plain_name (fs : String → Option String)
    (dsc_path : String) (res : List SourceFile) (e : SourceFile)
    (h : parse_dsc fs dsc_path = Except.ok res) (he : e ∈ res)
    (hname : ∀ c ∈ e.name.data, c ≠ '/') :
    basenameStr e.path = e.name := by
  have hp := (parse_dsc_mem fs dsc_path res e h he).1
  rw [hp]
  exact basename_join_of_no_slash _ _ hname

theorem C5_witness :
    basenameStr (⟨"abc", "10", "f.gz", "d/f.gz"⟩ : SourceFile).path =
      (⟨"abc", "10", "f.gz", "d/f.gz"⟩ : SourceFile).name :=
  C5_amended_basename_of_plain_name
    (fun p => if p = "d/x.dsc" then some "Checksums-Sha256:\n abc 10 f.gz\n"
      else none) "d/x.dsc" [⟨"abc", "10", "f.gz", "d/f.gz"⟩]
    _ (by rfl) (by simp) (by decide)

/-- C6 fails as stated: the size field holds the raw second token, with no
integer parsing — a row whose second token is not decimal text at all is
accepted, and the entry's size is that raw text. -/
theorem C6_counterexample :
    parse_dsc
      (fun p => if p = "d/x.dsc"
        then some "Checksums-Sha256:\n abc notanumber f.gz\n"
        else none) "d/x.dsc" =
      Except.ok [⟨"abc", "notanumber", "f.gz", "d/f.gz"⟩] ∧
    "notanumber".data.all Char.isDigit = false :=
  ⟨rfl, by decide⟩

/-- C6 (amended): every entry's size field is the raw text of the second
whitespace-separated token of its row; no numeric parsing or validation is
performed. -/
theorem C6_amended_raw_size (fs : String → Option String)
    (dsc_path content : String) (res : List SourceFile) (e : SourceFile)
    (hfs : fs dsc_path = some content)
    (h : parse_dsc fs dsc_path = Except.ok res) (he : e ∈ res) :
    ∃ r ∈ sectionRows (pySplitlines content),
      pySplit r = [e.sha256, e.size, e.name] := by
  rw [parse_dsc_eq fs dsc_path content hfs] at h
  exact (rowsToEntries_mem_shape _ _ res e h he).2

theorem C6_witness :
    ∃ r ∈ sectionRows (pySplitlines "Checksums-Sha256:\n abc 10 f.gz\n"),
      pySplit r = [(⟨"abc", "10", "f.gz", "d/f.gz"⟩ : SourceFile).sha256,
                   (⟨"abc", "10", "f.gz", "d/f.gz"⟩ : SourceFile).size,
                   (⟨"abc", "10", "f.gz", "d/f.gz"⟩ : SourceFile).name] :=
  C6_amended_raw_size
    (fun p => if p = "d/x.dsc" then some "Checksums-Sha256:\n abc 10 f.gz\n"
      else none) "d/x.dsc" _ [⟨"abc", "10", "f.gz", "d/f.gz"⟩]
    _ rfl (by rfl) (by simp)

/-- C7: with no recognized sub-command anywhere in the arguments, the
program fails with a usage error and a non-zero exit code. -/
theorem C7_no_subcommand_usage_error (fs : String → Option String)
    (argv : List String)
    (h : ∀ t ∈ argv.drop 1, t ≠ "binary") :
    (∃ e, main_run fs argv = Except.error (ProgError.usage e)) ∧
      program_exit fs argv ≠ 0 := by
  obtain ⟨e, he⟩ := parseArgTokens_error_of_no_binary (argv.drop 1) false h
  have hm : main_run fs argv = Except.error (ProgError.usage e) := by
    unfold main_run get_args
    rw [he]
  refine ⟨⟨e, hm⟩, ?_⟩
  unfold program_exit
  rw [hm]
  exact (by decide : (2 : Nat) ≠ 0)

theorem C7_witness :
    (∃ e, main_run (fun _ => none) ["build_package.py"] =
      Except.error (ProgError.usage e)) ∧
    program_exit (fun _ => none) ["build_package.py"] ≠ 0 :=
  C7_no_subcommand_usage_error (fun _ => none) ["build_package.py"] (by decide)

/-- C8: invoking the `binary` sub-command on a control-file path absent
from the filesystem terminates with the file-not-found error propagated
from the open operation, and a non-zero exit code. -/
theorem C8_missing_file_not_found (fs : String → Option String)
    (argv : List String) (verbose : Bool) (dsc location : String)
    (hargs : get_args argv = Except.ok ⟨verbose, Command.binary dsc location⟩)
    (hmiss : fs dsc = none) :
    main_run fs argv = Except.error (ProgError.uncaught PError.notFound) ∧
      program_exit fs argv ≠ 0 := by
  have hparse : parse_dsc fs dsc = Except.error PError.notFound := by
    simp only [parse_dsc, hmiss]
  have hbb : build_binary fs dsc location verbose =
      Except.error PError.notFound := by
    unfold build_binary
    rw [hparse]
  have hm : main_run fs argv =
      Except.error (ProgError.uncaught PError.notFound) := by
    unfold main_run
    rw [hargs]
    show (match build_binary fs dsc location verbose with
      | Except.ok code => Except.ok code
      | Except.error e => Except.error (ProgError.uncaught e)) = _
    rw [hbb]
  refine ⟨hm, ?_⟩
  unfold program_exit
  rw [hm]
  exact (by decide : (1 : Nat) ≠ 0)

theorem C8_witness :
    main_run (fun _ => none)
      ["build_package.py", "binary", "nonexistent.dsc", "/tmp"] =
      Except.error (ProgError.uncaught PError.notFound) ∧
    program_exit (fun _ => none)
      ["build_package.py", "binary", "nonexistent.dsc", "/tmp"] ≠ 0 :=
  C8_missing_file_not_found (fun _ => none)
    ["build_package.py", "binary", "nonexistent.dsc", "/tmp"]
    false "nonexistent.dsc" "/tmp" (by rfl) rfl

/-- C9 fails as stated: a tab-indented line after the header begins with
whitespace but is not treated as a data row — it terminates the section,
so a file whose section rows are tab-indented (or follow a tab-indented
line) parses to the empty list instead of contributing entries. -/
theorem C9_counterexample :
    isPySpace '\t' = true ∧
    strStartsWith "\tab 12 f" " " = false ∧
    pySplitlines "Checksums-Sha256:\n\tab 12 f\n x y z\n" =
      ["Checksums-Sha256:", "\tab 12 f", " x y z"] ∧
    parse_dsc
      (fun p => if p = "d/a.dsc"
        then some "Checksums-Sha256:\n\tab 12 f\n x y z\n"
        else none) "d/a.dsc" = Except.ok [] :=
  ⟨rfl, rfl, rfl, rfl⟩

/-- C9 (amended): once the first header line has been found, exactly the
following lines that begin with a space character are the section's data
rows, and the first following line that does not begin with a space
terminates the section: the parse result is determined by that maximal
space-indented run alone. -/
theorem C9_amended_space_rows (fs : String → Option String)
    (dsc_path content header : String) (pre rest : List String)
    (hfs : fs dsc_path = some content)
    (hsplit : pySplitlines content = pre ++ header :: rest)
    (hpre : ∀ l ∈ pre, strStartsWith l "Checksums-Sha256:" = false)
    (hhdr : strStartsWith header "Checksums-Sha256:" = true) :
    parse_dsc fs dsc_path =
      rowsToEntries (dirname dsc_path)
        (rest.takeWhile (fun l => strStartsWith l " ")) := by
  simp only [parse_dsc, hfs]
  rw [hsplit, parseLines_skip _ header pre rest hpre hhdr,
    parseLines_true_eq]

theorem C9_witness :
    parse_dsc
      (fun p => if p = "d/a.dsc"
        then some "Checksums-Sha256:\n a 1 f\nEnd: x\n"
        else none) "d/a.dsc" =
      rowsToEntries (dirname "d/a.dsc")
        (([" a 1 f", "End: x"]).takeWhile (fun l => strStartsWith l " ")) :=
  C9_amended_space_rows _ "d/a.dsc" _ "Checksums-Sha256:" []
    [" a 1 f", "End: x"] (by rfl) (by rfl) (by simp) (by rfl)

/-- C10: only the first `Checksums-Sha256` section is scanned — the result
is computed from the rows between the first header and the first
non-space-started line; everything after that terminating line (in
particular a second header and its indented rows) contributes nothing. -/
theorem C10_second_section_ignored (fs : String → Option String)
    (dsc_path content header term : String) (pre rows rest : List String)
    (hfs : fs dsc_path = some content)
    (hsplit : pySplitlines content = pre ++ header :: (rows ++ term :: rest))
    (hpre : ∀ l ∈ pre, strStartsWith l "Checksums-Sha256:" = false)
    (hhdr : strStartsWith header "Checksums-Sha256:" = true)
    (hrows : ∀ l ∈ rows, strStartsWith l " " = true)
    (hterm : strStartsWith term " " = false) :
    parse_dsc fs dsc_path = rowsToEntries (dirname dsc_path) rows := by
  simp only [parse_dsc, hfs]
  rw [hsplit, parseLines_skip _ header pre _ hpre hhdr, parseLines_true_eq]
  congr 1
  rw [takeWhile_append_of_all _ rows (term :: rest) hrows,
    List.takeWhile_cons, if_neg (by simp [hterm]), List.append_nil]

theorem C10_witness :
    parse_dsc
      (fun p => if p = "d/a.dsc"
        then some "Checksums-Sha256:\n a 1 f\nOther: x\nChecksums-Sha256:\n b 2 g\n"
        else none) "d/a.dsc" =
      rowsToEntries (dirname "d/a.dsc") [" a 1 f"] :=
  C10_second_section_ignored _ "d/a.dsc" _ "Checksums-Sha256:" "Other: x"
    [] [" a 1 f"] ["Checksums-Sha256:", " b 2 g"]
    (by rfl) (by rfl) (by simp) (by rfl) (by decide) (by rfl)

end BuildPackage
